import Mathlib

/-!
Verification development for `devodsconnector/writer.py` (the DevoInc
python-ds-connector repository).  The definitions below are a shallow
embedding of the `Writer` class: its wire encoder (`_make_msg`), header
builder (`_make_message_header`), batcher (`_load` / `_load_multi`),
record normalizer (`load` / `load_multi` dispatch, `_process_seq`,
`_process_mapping`) and decode-query generator (`_build_linq`).

Modelling conventions:
* Python strings are Lean `String`s (indexing is by code point on both
  sides).  Machine-level details (sockets, TLS) are out of scope; a
  transport write is recorded as the string handed to `send_raw`.
* The ambient hostname (`socket.gethostname()`) is passed explicitly.
* Python exceptions are the `PyErr` inductive; fallible steps return
  `Except PyErr _` and the overall entry points return a `LoadOutcome`
  recording the transport writes performed before any exception.
* `str.format` with a single positional argument is modelled by
  `pyFormat1`: it substitutes every occurrence of the placeholder
  "\x7b0\x7d", collapses the brace escapes, and fails (as CPython does,
  with `ValueError`) on a stray brace; see `formatAux` for the exact
  modelled subset.
-/

/-- Python exception kinds raised by the embedded code paths. -/
inductive PyErr where
  | stopIteration
  | indexError
  | keyError (k : String)
  | nameError (n : String)
  | typeError (msg : String)
  | valueError (msg : String)
  | exception (msg : String)
deriving DecidableEq, Repr

/-- Python scalar values as they occur in records: everything is converted
with `str()` before encoding, so only the string image matters; we keep a
string and an int constructor so that "stringification" is observable. -/
inductive PyVal where
  | str (s : String)
  | int (n : Int)
deriving DecidableEq, Repr

/-- Python `str()` on a record field. -/
def PyVal.toStr : PyVal → String
  | .str s => s
  | .int n => toString n

/-- An input record: an ordered sequence (`list`/`tuple`), a keyed mapping
(`dict`, insertion-ordered association list with distinct keys), or some
other object (`other`), carrying the name Python would print for its type
and the result of `len()` on it (`none` when `len()` raises `TypeError`). -/
inductive Record where
  | seq (fields : List PyVal)
  | mapping (pairs : List (String × PyVal))
  | other (typeName : String) (pyLength : Option Nat)
deriving DecidableEq, Repr

/-- Python `len()` on a record. -/
def Record.pyLen : Record → Option Nat
  | .seq fs => some fs.length
  | .mapping ps => some ps.length
  | .other _ l => l

/-- The character `\x7b` (left curly brace). -/
def lbrace : Char := Char.ofNat 123

/-- The character `\x7d` (right curly brace). -/
def rbrace : Char := Char.ofNat 125

/-- Worker for `pyFormat1`, scanning left to right exactly as CPython's
format parser does on this subset: the escape "\x7b\x7b" emits a literal
left brace, "\x7d\x7d" a literal right brace, the replacement field
"\x7b0\x7d" emits `arg`, and any other use of a brace (a lone brace, an
unterminated field, or a replacement field other than literally
"\x7b0\x7d") is a format error, returned as `none`.  CPython agrees on all
of these except that it additionally accepts some other replacement fields
(auto-numbered "\x7b\x7d", format specs, multi-digit or named indices,
raising IndexError/KeyError rather than ValueError for some of them); no
theorem quantifies over templates containing such fields. -/
def formatAux (arg : List Char) : List Char → Option (List Char)
  | [] => some []
  | c :: d :: e :: rest =>
    if c = lbrace ∧ d = lbrace then (formatAux arg (e :: rest)).map (fun t => lbrace :: t)
    else if c = rbrace ∧ d = rbrace then (formatAux arg (e :: rest)).map (fun t => rbrace :: t)
    else if c = lbrace ∧ d = '0' ∧ e = rbrace then (formatAux arg rest).map (fun t => arg ++ t)
    else if c = lbrace ∨ c = rbrace then none
    else (formatAux arg (d :: e :: rest)).map (fun t => c :: t)
  | [c, d] =>
    if c = lbrace ∧ d = lbrace then some [lbrace]
    else if c = rbrace ∧ d = rbrace then some [rbrace]
    else if c = lbrace ∨ c = rbrace then none
    else (formatAux arg [d]).map (fun t => c :: t)
  | [c] => if c = lbrace ∨ c = rbrace then none else some [c]

/-- Python `s.format(arg)` with one positional argument: every occurrence
of the placeholder "\x7b0\x7d" is replaced by `arg` (CPython substitutes
all occurrences of the same positional index), brace escapes collapse, and
a stray brace raises `ValueError` — see `formatAux` for the exact modelled
subset. -/
def pyFormat1 (s arg : String) : Except PyErr String :=
  match formatAux arg.data s.data with
  | some l => .ok (String.mk l)
  | none => .error (.valueError "Single brace encountered in format string")

/-- writer.py lines 170-180, `_make_message_header`.  The hostname lookup
(`socket.gethostname()`) is passed explicitly.  For historical mode the
result still contains the literal placeholder "\x7b0\x7d" for the per-row
timestamp; the inner `.format(hostname, tag)` call is pure concatenation
because its template is the literal string `"\x7b0\x7d \x7b1\x7d: "`. -/
def make_message_header (tag : String) (historical : Bool) (hostname : String) : String :=
  if historical then
    "<14>{0} " ++ (hostname ++ " " ++ ("(usd)" ++ tag) ++ ": ")
  else
    "<14>Jan  1 00:00:00 " ++ (hostname ++ " " ++ tag ++ ": ")

/-- writer.py line 195-196: `lengths = [len(s) for s in row]; lengths.insert(0, 0)`. -/
def msg_lengths (row : List String) : List Nat := 0 :: row.map String.length

/-- Running-total worker for `np.cumsum`. -/
def cumsumFrom (acc : Nat) : List Nat → List Nat
  | [] => []
  | x :: xs => (acc + x) :: cumsumFrom (acc + x) xs

/-- `numpy.cumsum` on a list of naturals. -/
def np_cumsum (l : List Nat) : List Nat := cumsumFrom 0 l

/-- writer.py line 198: the cumulative offset list `indices` of `_make_msg`. -/
def msg_indices (row : List String) : List Nat := np_cumsum (msg_lengths row)

/-- writer.py line 199: `','.join(str(i) for i in indices)`. -/
def indices_str (row : List String) : String :=
  String.intercalate "," ((msg_indices row).map toString)

/-- writer.py line 201: `''.join(row)`. -/
def row_concated (row : List String) : String := String.join row

/-- writer.py lines 182-205, `_make_msg`: header + index string + `<>` +
concatenated fields + newline. -/
def make_msg (header : String) (row : List String) : String :=
  header ++ (indices_str row ++ "<>" ++ row_concated row) ++ "\n"

/-- Semantics of the decode query expression
`substring(payload, start, len)`: the `len` code points starting at
code-point offset `start`. -/
def substringSem (s : String) (start len : Nat) : String :=
  String.mk ((s.data.drop start).take len)

/-- Python slice `s[a:b]` for `0 ≤ a ≤ b` (used to state the decode
round-trip: slice from `index[i]` to `index[i+1]`). -/
def pySlice (s : String) (a b : Nat) : String := substringSem s a (b - a)

/-- Worker for `splitComma`. -/
def splitCommaAux : List Char → List Char → List (List Char)
  | [], acc => [acc.reverse]
  | c :: rest, acc =>
    if c = ',' then acc.reverse :: splitCommaAux rest []
    else splitCommaAux rest (c :: acc)

/-- Semantics of the decode query expression `split(s, ",", i)`: splitting
on every comma (the index string contains no empty or escaped parts). -/
def splitComma (s : String) : List String := (splitCommaAux s.data []).map String.mk

/-- Python `list.pop(i)`, including negative-index resolution: returns the
popped element and the remaining list, or `none` for an `IndexError`. -/
def pyPop {α : Type} (l : List α) (i : Int) : Option (α × List α) :=
  let n : Int := l.length
  let j : Int := if i < 0 then i + n else i
  if h : 0 ≤ j ∧ j < n then
    some (l.get ⟨j.toNat, by omega⟩, l.eraseIdx j.toNat)
  else none

/-- One iteration of the `_load` loop body for a single normalized row
(writer.py lines 153-159): in historical mode pop the timestamp at
`ts_index` and substitute it into the header, then build the message. -/
def encodeStep (historical : Bool) (hdrBase : String) (ts_index : Option Int)
    (row : List String) : Except PyErr String :=
  if historical then
    match ts_index with
    | none => .error (.typeError "NoneType cannot be interpreted as an integer")
    | some i =>
      match pyPop row i with
      | none => .error .indexError
      | some (ts, rest) =>
        match pyFormat1 hdrBase ts with
        | .error e => .error e
        | .ok hdr => .ok (make_msg hdr rest)
  else .ok (make_msg hdrBase row)

/-- writer.py lines 144-168, `_load`: the batching loop.  `rows` is the lazy
normalized stream (elements may be deferred per-row exceptions), `counter`
and `bulk` are the loop state.  Returns the list of transport writes (in
order) and the exception that escaped, if any; an escaping exception
discards the unflushed partial batch, as in the source. -/
def loadGo (historical : Bool) (hdrBase : String) (ts_index : Option Int) (chunk : Nat) :
    List (Except PyErr (List String)) → Nat → String → List String × Option PyErr
  | [], _, bulk => (if bulk = "" then [] else [bulk], none)
  | r :: rest, counter, bulk =>
    match r with
    | .error e => ([], some e)
    | .ok row =>
      match encodeStep historical hdrBase ts_index row with
      | .error e => ([], some e)
      | .ok m =>
        let bulk2 := bulk ++ m
        let counter2 := counter + 1
        if counter2 = chunk then
          let res := loadGo historical hdrBase ts_index chunk rest 0 ""
          (bulk2 :: res.1, res.2)
        else loadGo historical hdrBase ts_index chunk rest counter2 bulk2

/-- `_load` with its header built once up front (writer.py line 146). -/
def loadRun (hostname tag : String) (historical : Bool) (ts_index : Option Int)
    (chunk : Nat) (rows : List (Except PyErr (List String))) :
    List String × Option PyErr :=
  loadGo historical (make_message_header tag historical hostname) ts_index chunk rows 0 ""

/-- Stringify one record by iterating it, `[str(c) for c in row]`
(writer.py lines 207-211).  Iterating a Python dict yields its keys. -/
def iterStr : Record → Except PyErr (List String)
  | .seq fs => .ok (fs.map PyVal.toStr)
  | .mapping ps => .ok (ps.map Prod.fst)
  | .other t _ => .error (.typeError (t ++ " object is not iterable"))

/-- Python dict lookup `first[c]` on an insertion-ordered pair list. -/
def lookupKey (ps : List (String × PyVal)) (k : String) : Option PyVal :=
  ps.lookup k

/-- Project one record through a fixed name order,
`[str(row[c]) for c in names]` (writer.py lines 213-217).  A `none` name is
Python `None` appearing in the name list (possible when `ts_name` is left
`None`); looking it up in a string-keyed dict raises `KeyError`. -/
def projectByNames (names : List (Option String)) : Record → Except PyErr (List String)
  | .mapping ps => names.mapM fun c =>
      match c with
      | some k =>
        match lookupKey ps k with
        | some v => .ok v.toStr
        | none => .error (.keyError k)
      | none => .error (.keyError "None")
  | .seq _ => .error (.typeError "list indices must be integers, not str")
  | .other t _ => .error (.typeError (t ++ " object is not subscriptable"))

/-- writer.py lines 207-211, `_process_seq`: re-emit the consumed first
record (stringified) ahead of the stringified remainder. -/
def processSeq (first : Record) (rest : List Record) : List (Except PyErr (List String)) :=
  iterStr first :: rest.map iterStr

/-- writer.py lines 213-217, `_process_mapping`: project the consumed first
record and then every further record through the fixed name order. -/
def processMapping (names : List (Option String)) (first : Record) (rest : List Record) :
    List (Except PyErr (List String)) :=
  projectByNames names first :: rest.map (projectByNames names)

/-- Lexicographic code-point comparison of char lists: Python string `<`. -/
def charListLt : List Char → List Char → Bool
  | [], [] => false
  | [], _ :: _ => true
  | _ :: _, [] => false
  | c :: cs, d :: ds =>
    if c.val < d.val then true
    else if d.val < c.val then false
    else charListLt cs ds

/-- Python string comparison `a < b` (code-point lexicographic). -/
def pyStrLt (a b : String) : Bool := charListLt a.data b.data

/-- Stable insertion of a string into an ascending list (helper for
`pySorted`). -/
def insertLe (x : String) : List String → List String
  | [] => [x]
  | y :: ys => if pyStrLt y x then y :: insertLe x ys else x :: y :: ys

/-- Python `sorted()` on a list of strings: stable ascending sort by
code-point order. -/
def pySorted (l : List String) : List String := l.foldr insertLe []

/-- Render a name for the query fragment: formatting Python `None` into a
string produces "None". -/
def unwrapName : Option String → String
  | some s => s
  | none => "None"

/-- writer.py lines 106-122: resolution of the mapping-input variant of
`load` once the `elif` branch is entered.  Returns the projection order
`names`, the `columns` value handed to `_build_linq`, and the resolved
`ts_index`.  Both `if columns:` tests (lines 107 and 112) use Python
truthiness, so an EMPTY caller-supplied column list behaves exactly like
`columns=None` and falls through to the sorted-keys path.  `list.remove`
of an absent element (including `ts_name=None`) raises `ValueError`. -/
def resolveMapping (historical : Bool) (columns : Option (List String))
    (ts_name : Option String) (ts_index : Option Int) (numCols : Int)
    (ps : List (String × PyVal)) :
    Except PyErr (List (Option String) × Option (List String) × Option Int) :=
  let colsNE : Option (List String) :=
    match columns with
    | some (c :: cs) => some (c :: cs)
    | _ => none
  let names0 : List (Option String) :=
    match colsNE with
    | some cs => cs.map some
    | none => (pySorted (ps.map Prod.fst)).map some
  if historical then
    match colsNE with
    | some _ => .ok (names0 ++ [ts_name], colsNE, some numCols)
    | none =>
      if ts_name ∈ names0 then
        let cols := names0.erase ts_name
        .ok (cols ++ [ts_name], some (cols.map unwrapName), some numCols)
      else .error (.valueError "list.remove(x): x not in list")
  else .ok (names0, some (names0.map unwrapName), ts_index)

/-- writer.py lines 225-230: the column-extraction template of
`_build_linq`, after `.format(i=i, col_name=col_name)` (the literal text
"\x7bi\x7d+1" becomes the decimal of `i` followed by "+1"). -/
def col_extract (i : Nat) (col_name : String) : String :=
  "\n        select substring(payload,\n        int(split(indices, \",\", " ++ toString i
    ++ ")),\n        int(split(indices, \",\", " ++ toString i
    ++ "+1)) - int(split(indices, \",\", " ++ toString i
    ++ "))\n        ) as `" ++ col_name ++ "`\n        "

/-- writer.py lines 232-238: the fixed leading part of the query fragment,
after `.format(tag=tag)`. -/
def linq_from (tag : String) : String :=
  "\n        from " ++ tag
    ++ "\n\n        select split(message, \"<>\", 0) as indices\n        select subs(message, re(\"[0-9,]*<>\"), template(\"\")) as payload\n\n        "

/-- writer.py lines 222-223: synthesized `col_0 .. col_(n-1)` names when no
columns were supplied (`range` of a negative int is empty). -/
def default_columns (numCols : Int) : List String :=
  (List.range numCols.toNat).map fun i => "col_" ++ toString i

/-- writer.py lines 240-241: one formatted extraction per column, in
`enumerate(columns)` order. -/
def linqExtracts (cols : List String) : List String :=
  cols.enum.map fun p => col_extract p.1 p.2

/-- writer.py lines 219-243, `_build_linq`. -/
def build_linq (tag : String) (numCols : Int) (columns : Option (List String)) : String :=
  let cols := match columns with
    | none => default_columns numCols
    | some cs => cs
  linq_from tag ++ String.join (linqExtracts cols)

/-- Observable result of a `load`/`load_multi` call: the transport writes
performed (in order), the decode-query fragment generated (if the call got
that far and a `linq_func` was supplied), and the escaping exception, if
any. -/
structure LoadOutcome where
  writes : List String
  linq : Option String
  error : Option PyErr
deriving DecidableEq, Repr

/-- writer.py lines 91-134, `load`, exactly as shipped.  The module does
not bring in pandas, so once the first element is not a `Sequence`, evaluating
the isinstance tuple `(abc.Mapping, np.ndarray, pd.core.series.Series)` on
line 106 raises `NameError: name pd is not defined` — for mappings and for
unsupported shapes alike; the Unsupported-Input raise on line 124 is
unreachable.  `useLinq` models whether a non-`None` `linq_func` was
supplied; when it is, the generated fragment is recorded in the outcome. -/
def load (hostname : String) (data : List Record) (tag : String) (historical : Bool)
    (ts_index : Option Int) (ts_name : Option String) (columns : Option (List String))
    (useLinq : Bool) : LoadOutcome :=
  match data with
  | [] => ⟨[], none, some .stopIteration⟩
  | first :: rest =>
    match first.pyLen with
    | none => ⟨[], none, some (.typeError "object has no len()")⟩
    | some L =>
      let chunk : Nat := if historical then 50 else 1
      let numCols : Int := if historical then (L : Int) - 1 else (L : Int)
      match first with
      | .seq _ =>
        let rows := processSeq first rest
        let linq := if useLinq then some (build_linq tag numCols columns) else none
        let res := loadRun hostname tag historical ts_index chunk rows
        ⟨res.1, linq, res.2⟩
      | _ => ⟨[], none, some (.nameError "pd")⟩

/-- writer.py lines 91-134, `load`, with the missing `import pandas as pd`
repaired so that the intended dispatch on lines 104-124 is observable: this
is the branch structure the source spells out (sequence / mapping /
unsupported-type `Exception`).  Numpy arrays and pandas Series, which the
repaired isinstance would also accept, are subsumed by `Record.mapping`'s
role here and not modelled separately.  Used to settle the claims about the
mapping normalization logic itself. -/
def loadI (hostname : String) (data : List Record) (tag : String) (historical : Bool)
    (ts_index : Option Int) (ts_name : Option String) (columns : Option (List String))
    (useLinq : Bool) : LoadOutcome :=
  match data with
  | [] => ⟨[], none, some .stopIteration⟩
  | first :: rest =>
    match first.pyLen with
    | none => ⟨[], none, some (.typeError "object has no len()")⟩
    | some L =>
      let chunk : Nat := if historical then 50 else 1
      let numCols : Int := if historical then (L : Int) - 1 else (L : Int)
      match first with
      | .seq _ =>
        let rows := processSeq first rest
        let linq := if useLinq then some (build_linq tag numCols columns) else none
        let res := loadRun hostname tag historical ts_index chunk rows
        ⟨res.1, linq, res.2⟩
      | .mapping ps =>
        match resolveMapping historical columns ts_name ts_index numCols ps with
        | .error e => ⟨[], none, some e⟩
        | .ok (names, colsArg, tsIdx) =>
          let rows := processMapping names first rest
          let linq := if useLinq then some (build_linq tag numCols colsArg) else none
          let res := loadRun hostname tag historical tsIdx chunk rows
          ⟨res.1, linq, res.2⟩
      | .other t _ =>
        ⟨[], none, some (.exception ("data of type " ++ t ++ " is not supported for loading"))⟩

/-- writer.py lines 291-301: pop the timestamp and the tag from one row in
descending raw-index order; equal raw indices raise the Same-Index
exception.  The comparisons and both pops use the caller-supplied integers
as-is (negative indices are resolved per pop by `pyPop`).  Generic in the
field type because the fall-through path of `load_multi` runs the same
code on raw, unstringified rows. -/
def popTsTag {α : Type} (row : List α) (ts_index tag_index : Int) :
    Except PyErr (α × α × List α) :=
  if ts_index < tag_index then
    match pyPop row tag_index with
    | none => .error .indexError
    | some (tag, row1) =>
      match pyPop row1 ts_index with
      | none => .error .indexError
      | some (ts, row2) => .ok (ts, tag, row2)
  else if tag_index < ts_index then
    match pyPop row ts_index with
    | none => .error .indexError
    | some (ts, row1) =>
      match pyPop row1 tag_index with
      | none => .error .indexError
      | some (tag, row2) => .ok (ts, tag, row2)
  else .error (.exception "ts and tag were assigned same index")

/-- Whether a Python value is a string (needed because `_make_msg` runs
`len(s)` on every remaining field and raises `TypeError` on the first
non-string one). -/
def PyVal.isStrB : PyVal → Bool
  | .str _ => true
  | .int _ => false

/-- A row as `_load_multi` sees it: `norm` rows were stringified by
`_process_seq`/`_process_mapping`; the other constructors only arise on the
fall-through path where the raw records reach the loop unconverted — a raw
list (`raw`), a raw dict (`rawMap`, whose `pop(int)` raises `KeyError`), or
some other object (`rawOther`, which has no positional `pop`). -/
inductive MultiRow where
  | norm (fields : List String)
  | raw (fields : List PyVal)
  | rawMap
  | rawOther (typeName : String)
deriving DecidableEq, Repr

/-- One iteration of the `_load_multi` loop body (writer.py lines 289-309):
extract tag (and, historically, timestamp), build the per-row header, and
encode.  Comparing `None` with an int on line 294 raises `TypeError`; the
Same-Index check precedes the pops for every row shape; on raw rows the
popped tag and timestamp are stringified by the header `format` calls, and
`_make_msg` then requires every REMAINING field to be a string. -/
def multiStep (hostname : String) (historical : Bool) (ts_index tag_index : Option Int)
    (row : MultiRow) : Except PyErr String :=
  match row with
  | .norm fields =>
    if historical then
      match ts_index, tag_index with
      | some ti, some tgi =>
        match popTsTag fields ti tgi with
        | .error e => .error e
        | .ok (ts, tag, rest) =>
          match pyFormat1 (make_message_header tag true hostname) ts with
          | .error e => .error e
          | .ok hdr => .ok (make_msg hdr rest)
      | _, _ => .error (.typeError "comparison not supported with NoneType")
    else
      match tag_index with
      | none => .error (.typeError "NoneType cannot be interpreted as an integer")
      | some tgi =>
        match pyPop fields tgi with
        | none => .error .indexError
        | some (tag, rest) => .ok (make_msg (make_message_header tag false hostname) rest)
  | .raw fields =>
    if historical then
      match ts_index, tag_index with
      | some ti, some tgi =>
        match popTsTag fields ti tgi with
        | .error e => .error e
        | .ok (tsv, tagv, rest) =>
          match pyFormat1 (make_message_header tagv.toStr true hostname) tsv.toStr with
          | .error e => .error e
          | .ok hdr =>
            if rest.all PyVal.isStrB then .ok (make_msg hdr (rest.map PyVal.toStr))
            else .error (.typeError "object of type int has no len()")
      | _, _ => .error (.typeError "comparison not supported with NoneType")
    else
      match tag_index with
      | none => .error (.typeError "NoneType cannot be interpreted as an integer")
      | some tgi =>
        match pyPop fields tgi with
        | none => .error .indexError
        | some (tagv, rest) =>
          if rest.all PyVal.isStrB then
            .ok (make_msg (make_message_header tagv.toStr false hostname) (rest.map PyVal.toStr))
          else .error (.typeError "object of type int has no len()")
  | .rawMap =>
    if historical then
      match ts_index, tag_index with
      | some ti, some tgi =>
        if ti < tgi then .error (.keyError (toString tgi))
        else if tgi < ti then .error (.keyError (toString ti))
        else .error (.exception "ts and tag were assigned same index")
      | _, _ => .error (.typeError "comparison not supported with NoneType")
    else
      match tag_index with
      | none => .error (.keyError "None")
      | some tgi => .error (.keyError (toString tgi))
  | .rawOther t =>
    if historical then
      match ts_index, tag_index with
      | some ti, some tgi =>
        if ti < tgi ∨ tgi < ti then .error (.typeError (t ++ " object has no attribute pop"))
        else .error (.exception "ts and tag were assigned same index")
      | _, _ => .error (.typeError "comparison not supported with NoneType")
    else .error (.typeError (t ++ " object has no attribute pop"))

/-- writer.py lines 284-318, `_load_multi`: the multi-tag batching loop. -/
def loadMultiGo (hostname : String) (historical : Bool) (ts_index tag_index : Option Int)
    (chunk : Nat) :
    List (Except PyErr MultiRow) → Nat → String → List String × Option PyErr
  | [], _, bulk => (if bulk = "" then [] else [bulk], none)
  | r :: rest, counter, bulk =>
    match r with
    | .error e => ([], some e)
    | .ok row =>
      match multiStep hostname historical ts_index tag_index row with
      | .error e => ([], some e)
      | .ok m =>
        let bulk2 := bulk ++ m
        let counter2 := counter + 1
        if counter2 = chunk then
          let res := loadMultiGo hostname historical ts_index tag_index chunk rest 0 ""
          (bulk2 :: res.1, res.2)
        else loadMultiGo hostname historical ts_index tag_index chunk rest counter2 bulk2

/-- writer.py lines 264-280: the mapping-input resolution of `load_multi`:
timestamp is placed second-to-last and tag last (either removal of an
absent or `None` name raises `ValueError`). -/
def resolveMultiMapping (historical : Bool) (ts_name tag_name : Option String)
    (ts_index : Option Int) (numCols : Int) (ps : List (String × PyVal)) :
    Except PyErr (List (Option String) × Option Int × Option Int) :=
  let names0 : List (Option String) := ps.map fun p => some p.1
  if historical then
    if ts_name ∈ names0 then
      let n1 := names0.erase ts_name
      if tag_name ∈ n1 then
        .ok (n1.erase tag_name ++ [ts_name, tag_name], some (numCols - 2), some (numCols - 1))
      else .error (.valueError "list.remove(x): x not in list")
    else .error (.valueError "list.remove(x): x not in list")
  else
    if tag_name ∈ names0 then
      .ok (names0.erase tag_name ++ [tag_name], ts_index, some (numCols - 1))
    else .error (.valueError "list.remove(x): x not in list")

/-- Fall-through of `load_multi` when the first record is neither a
sequence nor a mapping: the source has no `else`, silently DROPS the
consumed first record and feeds the raw remaining records to
`_load_multi`; every failure happens lazily inside the loop body, so the
stream itself never errors (see `multiStep` for the per-shape behavior). -/
def rawFallback : Record → Except PyErr MultiRow
  | .seq fs => .ok (.raw fs)
  | .mapping _ => .ok .rawMap
  | .other t _ => .ok (.rawOther t)

/-- writer.py lines 246-282, `load_multi` (the unused `default_schema` and
`columns` parameters of the source are omitted: the source reads neither
after its `columns = \x7b\x7d` defaulting). -/
def load_multi (hostname : String) (data : List Record) (tag_index : Option Int)
    (tag_name : Option String) (historical : Bool) (ts_index : Option Int)
    (ts_name : Option String) : LoadOutcome :=
  match data with
  | [] => ⟨[], none, some .stopIteration⟩
  | first :: rest =>
    match first.pyLen with
    | none => ⟨[], none, some (.typeError "object has no len()")⟩
    | some L =>
      let chunk : Nat := if historical then 50 else 1
      let numCols : Int := (L : Int)
      match first with
      | .seq _ =>
        let rows := (processSeq first rest).map (fun r => r.map MultiRow.norm)
        let res := loadMultiGo hostname historical ts_index tag_index chunk rows 0 ""
        ⟨res.1, none, res.2⟩
      | .mapping ps =>
        match resolveMultiMapping historical ts_name tag_name ts_index numCols ps with
        | .error e => ⟨[], none, some e⟩
        | .ok (names, tsI, tgI) =>
          let rows := (processMapping names first rest).map (fun r => r.map MultiRow.norm)
          let res := loadMultiGo hostname historical tsI tgI chunk rows 0 ""
          ⟨res.1, none, res.2⟩
      | .other _ _ =>
        let rows := rest.map rawFallback
        let res := loadMultiGo hostname historical ts_index tag_index chunk rows 0 ""
        ⟨res.1, none, res.2⟩

/-- Number of newline characters in a string; each encoded message of
newline-free fields contributes exactly one, so this counts the messages
inside one transport write. -/
def countNL (s : String) : Nat := s.data.count '\n'

/-- Decidable per-row success of the `_load` loop body: the stream element
carries no deferred exception and the whole loop body (timestamp pop AND
the per-row header `format`, which can raise on stray braces) succeeds. -/
def encOkB (historical : Bool) (hdrBase : String) (ts_index : Option Int)
    (r : Except PyErr (List String)) : Bool :=
  match r with
  | .error _ => false
  | .ok row =>
    match encodeStep historical hdrBase ts_index row with
    | .ok _ => true
    | .error _ => false

/-- The message the `_load` loop body produces for a stream element (empty
string on the error cases, which `encOkB` rules out). -/
def msgOf (historical : Bool) (hdrBase : String) (ts_index : Option Int)
    (r : Except PyErr (List String)) : String :=
  match r with
  | .error _ => ""
  | .ok row =>
    match encodeStep historical hdrBase ts_index row with
    | .error _ => ""
    | .ok m => m

/-- The one-character string holding a lone right brace (spelled from its
code point, as with `rbrace` itself). -/
def rbraceStr : String := String.mk [rbrace]

/-- The tag `x\x7d\x7dy`: an `x`, a doubled right brace, then `y`. -/
def tagDoubledBrace : String := String.mk ['x', rbrace, rbrace, 'y']

/-- The string `x\x7dy`: the previous tag with the brace escape collapsed. -/
def tagSingleBrace : String := String.mk ['x', rbrace, 'y']

/-- Decidable equality for `Except` results (used to evaluate the model at
concrete inputs). -/
instance {e a : Type} [DecidableEq e] [DecidableEq a] : DecidableEq (Except e a) := fun x y =>
  match x, y with
  | .ok v, .ok w => if h : v = w then isTrue (by rw [h]) else isFalse (by simp [h])
  | .error v, .error w => if h : v = w then isTrue (by rw [h]) else isFalse (by simp [h])
  | .ok _, .error _ => isFalse (by simp)
  | .error _, .ok _ => isFalse (by simp)

/-! Basic lemmas about the cumulative index list. -/

theorem cumsumFrom_length (l : List Nat) (acc : Nat) :
    (cumsumFrom acc l).length = l.length := by
  induction l generalizing acc with
  | nil => rfl
  | cons x xs ih => simp [cumsumFrom, ih]

theorem cumsumFrom_get (l : List Nat) (acc : Nat) (i : Nat) (h : i < l.length) :
    (cumsumFrom acc l).get ⟨i, by rw [cumsumFrom_length]; exact h⟩
      = acc + (l.take (i + 1)).sum := by
  induction l generalizing acc i with
  | nil => exact absurd h (by simp)
  | cons x xs ih =>
    cases i with
    | zero => simp [cumsumFrom]
    | succ j =>
      have hj : j < xs.length := by simpa using h
      have ih2 := ih (acc + x) j hj
      simp only [List.get_eq_getElem] at ih2 ⊢
      simp only [cumsumFrom, List.getElem_cons_succ]
      rw [ih2]
      simp [List.take_succ_cons, Nat.add_assoc]

theorem msg_indices_length (row : List String) :
    (msg_indices row).length = row.length + 1 := by
  simp [msg_indices, np_cumsum, cumsumFrom_length, msg_lengths]

theorem msg_indices_get (row : List String) (i : Nat) (h : i ≤ row.length) :
    (msg_indices row).get ⟨i, by rw [msg_indices_length]; omega⟩
      = ((row.take i).map String.length).sum := by
  have hlt : i < (msg_lengths row).length := by simp [msg_lengths]; omega
  have := cumsumFrom_get (msg_lengths row) 0 i hlt
  simp only [msg_indices, np_cumsum]
  rw [this]
  simp [msg_lengths, List.map_take]

theorem map_length_take (row : List String) (i : Nat) :
    ((row.take i).map String.length).sum = ((row.map String.length).take i).sum := by
  rw [List.map_take]

theorem msg_indices_get_succ (row : List String) (i : Nat) (h : i < row.length) :
    (msg_indices row).get ⟨i + 1, by rw [msg_indices_length]; omega⟩
      = ((row.take i).map String.length).sum + (row.get ⟨i, h⟩).length := by
  rw [msg_indices_get row (i + 1) (by omega), map_length_take, map_length_take,
    List.sum_take_succ (row.map String.length) i (by simpa using h)]
  simp

/-! String data lemmas. -/

theorem join_data (l : List String) : (String.join l).data = (l.map String.data).join := by
  have h : ∀ (m : List String) (init : String),
      (m.foldl (fun r s => r ++ s) init).data = init.data ++ (m.map String.data).join := by
    intro m
    induction m with
    | nil => intro init; simp
    | cons a t ih => intro init; simp [ih, String.data_append]
  simpa using h l ""

theorem join_cons (a : String) (l : List String) :
    String.join (a :: l) = a ++ String.join l := by
  apply String.ext
  simp [join_data, String.data_append]

theorem string_append_eq_empty {a b : String} :
    a ++ b = "" ↔ a = "" ∧ b = "" := by
  constructor
  · intro h
    have hd := congrArg String.data h
    simp [String.data_append] at hd
    exact ⟨String.ext hd.1, String.ext hd.2⟩
  · rintro ⟨ha, hb⟩
    subst ha; subst hb; rfl

theorem string_empty_append (a : String) : "" ++ a = a := by
  apply String.ext
  simp [String.data_append]

theorem make_msg_ne_empty (h : String) (row : List String) :
    make_msg h row ≠ "" := by
  intro heq
  have hd := congrArg String.data heq
  simp [make_msg, String.data_append] at hd

/-! Slicing the concatenated payload recovers each field. -/

theorem join_slice_str (row : List String) (i : Nat) (h : i < row.length) :
    (((row.map String.data).join).drop (((row.take i).map String.length).sum)).take
        (row.get ⟨i, h⟩).length
      = (row.get ⟨i, h⟩).data := by
  induction row generalizing i with
  | nil => exact absurd h (by simp)
  | cons A T ih =>
    cases i with
    | zero =>
      simp only [List.take_zero, List.map_nil, List.sum_nil, List.drop_zero,
        List.map_cons, List.join_cons, List.get]
      exact List.take_left A.data (T.map String.data).join
    | succ j =>
      have hj : j < T.length := by simpa using h
      have hAl : A.length = A.data.length := rfl
      have hsum : (((A :: T).take (j + 1)).map String.length).sum
          = A.data.length + (((T.take j).map String.length).sum) := by
        rw [← hAl]
        simp [List.take_succ_cons]
      rw [hsum]
      have hdrop : (((A :: T).map String.data).join).drop
            (A.data.length + ((T.take j).map String.length).sum)
          = ((T.map String.data).join).drop (((T.take j).map String.length).sum) := by
        have h1 : ((A :: T).map String.data).join = A.data ++ (T.map String.data).join := by
          simp
        rw [h1, ← List.drop_drop, List.drop_left]
      rw [hdrop]
      have hget : (A :: T).get ⟨j + 1, h⟩ = T.get ⟨j, hj⟩ := rfl
      rw [hget]
      exact ih j hj

theorem slice_field (row : List String) (i : Nat) (hi : i < row.length) :
    pySlice (row_concated row)
      ((msg_indices row).get ⟨i, by rw [msg_indices_length]; omega⟩)
      ((msg_indices row).get ⟨i + 1, by rw [msg_indices_length]; omega⟩)
      = row.get ⟨i, hi⟩ := by
  rw [msg_indices_get row i (by omega), msg_indices_get_succ row i hi]
  have hsub : ((row.take i).map String.length).sum + (row.get ⟨i, hi⟩).length
      - ((row.take i).map String.length).sum = (row.get ⟨i, hi⟩).length := by omega
  unfold pySlice substringSem
  rw [hsub]
  apply String.ext
  show ((row_concated row).data.drop (((row.take i).map String.length).sum)).take
      (row.get ⟨i, hi⟩).length = (row.get ⟨i, hi⟩).data
  have hdata : (row_concated row).data = (row.map String.data).join := by
    unfold row_concated
    rw [join_data]
  rw [hdata]
  exact join_slice_str row i hi

theorem string_append_assoc (a b c : String) : a ++ b ++ c = a ++ (b ++ c) := by
  apply String.ext
  simp [String.data_append]

theorem msg_indices_mono (row : List String) (i j : Nat) (hij : i ≤ j)
    (hj : j ≤ row.length) :
    (msg_indices row).get ⟨i, by rw [msg_indices_length]; omega⟩
      ≤ (msg_indices row).get ⟨j, by rw [msg_indices_length]; omega⟩ := by
  rw [msg_indices_get row i (by omega), msg_indices_get row j hj]
  have hsplit : row.take j = row.take i ++ (row.drop i).take (j - i) := by
    have h := List.take_add row i (j - i)
    rw [show i + (j - i) = j from by omega] at h
    exact h
  rw [hsplit]
  simp

/-! The batching loop: no error, write count, and content, under per-row
success of the loop body. -/

theorem encodeStep_ok_ne_empty (historical : Bool) (hdrBase : String)
    (tsi : Option Int) (row : List String) (m : String)
    (h : encodeStep historical hdrBase tsi row = .ok m) : m ≠ "" := by
  cases historical with
  | false =>
    simp only [encodeStep, Bool.false_eq_true, if_false, Except.ok.injEq] at h
    exact h ▸ make_msg_ne_empty _ _
  | true =>
    cases tsi with
    | none => simp [encodeStep] at h
    | some i =>
      cases hp : pyPop row i with
      | none => simp [encodeStep, hp] at h
      | some p =>
        obtain ⟨ts, restr⟩ := p
        cases hf : pyFormat1 hdrBase ts with
        | error e => simp [encodeStep, hp, hf] at h
        | ok hdr =>
          simp only [encodeStep, if_true, hp, hf, Except.ok.injEq] at h
          exact h ▸ make_msg_ne_empty _ _

theorem loadGo_ok (historical : Bool) (hdrBase : String) (tsi : Option Int)
    (chunk : Nat) (hchunk : 0 < chunk) (rows : List (Except PyErr (List String))) :
    ∀ (c : Nat) (b : String), c < chunk → (b = "" ↔ c = 0) →
      (∀ r ∈ rows, encOkB historical hdrBase tsi r = true) →
      (loadGo historical hdrBase tsi chunk rows c b).2 = none
      ∧ (loadGo historical hdrBase tsi chunk rows c b).1.length
          = (c + rows.length + (chunk - 1)) / chunk
      ∧ String.join (loadGo historical hdrBase tsi chunk rows c b).1
          = b ++ String.join (rows.map (msgOf historical hdrBase tsi)) := by
  induction rows with
  | nil =>
    intro c b hc hb _
    by_cases hbe : b = ""
    · have hc0 : c = 0 := hb.mp hbe
      have hdiv : (c + (chunk - 1)) / chunk = 0 := by
        rw [hc0]
        exact Nat.div_eq_of_lt (by omega)
      refine ⟨by simp [loadGo], ?_, ?_⟩
      · simp [loadGo, hbe, hdiv]
      · simp [loadGo, hbe, string_empty_append]
    · have hcpos : c ≠ 0 := fun h0 => hbe (hb.mpr h0)
      have hdiv : (c + (chunk - 1)) / chunk = 1 := by
        have hnum : c + (chunk - 1) = (c - 1) + chunk := by omega
        rw [hnum, Nat.add_div_right _ hchunk, Nat.div_eq_of_lt (by omega)]
      refine ⟨by simp [loadGo], ?_, ?_⟩
      · simp [loadGo, hbe, hdiv]
      · simp only [loadGo, if_neg hbe, List.map_nil]
        rw [join_cons]
  | cons r rest ih =>
    intro c b hc hb hall
    have hr := hall r (by simp)
    have hrest : ∀ x ∈ rest, encOkB historical hdrBase tsi x = true :=
      fun x hx => hall x (by simp [hx])
    cases r with
    | error e => simp [encOkB] at hr
    | ok row =>
      have hstep : ∃ m, encodeStep historical hdrBase tsi row = .ok m ∧ m ≠ "" := by
        cases hse : encodeStep historical hdrBase tsi row with
        | error e => simp [encOkB, hse] at hr
        | ok m => exact ⟨m, rfl, encodeStep_ok_ne_empty historical hdrBase tsi row m hse⟩
      obtain ⟨m, hm, hmne⟩ := hstep
      have hmsg : msgOf historical hdrBase tsi (.ok row) = m := by
        simp [msgOf, hm]
      by_cases hflush : c + 1 = chunk
      · have hres := ih 0 "" hchunk (by simp) hrest
        obtain ⟨he, hlen, hjoin⟩ := hres
        have hgo : loadGo historical hdrBase tsi chunk (Except.ok row :: rest) c b
            = ((b ++ m) :: (loadGo historical hdrBase tsi chunk rest 0 "").1,
               (loadGo historical hdrBase tsi chunk rest 0 "").2) := by
          simp [loadGo, hm, hflush]
        refine ⟨by rw [hgo]; exact he, ?_, ?_⟩
        · rw [hgo]
          simp only [List.length_cons]
          rw [hlen]
          have hnum : c + (rest.length + 1) + (chunk - 1)
              = (0 + rest.length + (chunk - 1)) + chunk := by
            omega
          rw [hnum, Nat.add_div_right _ hchunk]
        · rw [hgo, join_cons, hjoin, string_empty_append]
          simp only [List.map_cons, hmsg]
          rw [join_cons, string_append_assoc]
      · have hlt : c + 1 < chunk := by omega
        have hbm : (b ++ m = "") ↔ (c + 1 = 0) := by
          constructor
          · intro habs
            exact absurd (string_append_eq_empty.mp habs).2 hmne
          · omega
        have hres := ih (c + 1) (b ++ m) hlt hbm hrest
        obtain ⟨he, hlen, hjoin⟩ := hres
        have hgo : loadGo historical hdrBase tsi chunk (Except.ok row :: rest) c b
            = loadGo historical hdrBase tsi chunk rest (c + 1) (b ++ m) := by
          simp [loadGo, hm, hflush]
        refine ⟨by rw [hgo]; exact he, ?_, ?_⟩
        · rw [hgo, hlen]
          congr 1
          simp only [List.length_cons]
          omega
        · rw [hgo, hjoin]
          simp only [List.map_cons, hmsg]
          rw [join_cons, string_append_assoc]

/-! Lemmas about positional removal (`list.pop`). -/

theorem length_eraseIdx_le {α : Type} (l : List α) (i : Nat) :
    (l.eraseIdx i).length ≤ l.length := by
  rw [List.length_eraseIdx]
  split <;> omega

theorem get_eraseIdx_lt {α : Type} : ∀ (l : List α) (i k : Nat), k < i →
    ∀ (hkl : k < (l.eraseIdx i).length),
    (l.eraseIdx i).get ⟨k, hkl⟩
      = l.get ⟨k, Nat.lt_of_lt_of_le hkl (length_eraseIdx_le l i)⟩
  | [], i, k, _, hkl => by simp [List.eraseIdx] at hkl
  | _ :: _, i + 1, 0, _, _ => rfl
  | a :: t, i + 1, k + 1, hk, hkl => by
      have hkl2 : k < (t.eraseIdx i).length := by
        simp only [List.eraseIdx_cons_succ, List.length_cons] at hkl
        omega
      exact get_eraseIdx_lt t i k (by omega) hkl2
  | _ :: _, 0, k, hk, _ => by omega

theorem get_eraseIdx_ge {α : Type} : ∀ (l : List α) (i k : Nat), i ≤ k →
    ∀ (hk1 : k + 1 < l.length) (hkl : k < (l.eraseIdx i).length),
    (l.eraseIdx i).get ⟨k, hkl⟩ = l.get ⟨k + 1, hk1⟩
  | [], _, k, _, hk1, _ => by simp at hk1
  | _ :: _, 0, k, _, _, _ => rfl
  | _ :: _, i + 1, 0, hik, _, _ => by omega
  | a :: t, i + 1, k + 1, hik, hk1, hkl => by
      have hk1t : k + 1 < t.length := by
        simp only [List.length_cons] at hk1
        omega
      have hklt : k < (t.eraseIdx i).length := by
        simp only [List.eraseIdx_cons_succ, List.length_cons] at hkl
        omega
      exact get_eraseIdx_ge t i k (by omega) hk1t hklt

theorem pyPop_nat {α : Type} (l : List α) (k : Nat) (h : k < l.length) :
    pyPop l (k : Int) = some (l.get ⟨k, h⟩, l.eraseIdx k) := by
  have h1 : ¬ ((k : Int) < 0) := by omega
  have h2 : (0 : Int) ≤ (k : Int) ∧ (k : Int) < (l.length : Int) := by
    constructor <;> omega
  simp only [pyPop, h1, if_false]
  rw [dif_pos h2]
  simp

theorem get_append_last {α : Type} : ∀ (l : List α) (x : α),
    (l ++ [x]).get ⟨l.length, by simp⟩ = x
  | [], _ => rfl
  | a :: t, x => get_append_last t x

theorem eraseIdx_append_last {α : Type} : ∀ (l : List α) (x : α),
    (l ++ [x]).eraseIdx l.length = l
  | [], _ => rfl
  | a :: t, x => by
      show a :: ((t ++ [x]).eraseIdx t.length) = a :: t
      rw [eraseIdx_append_last t x]

theorem pyPop_append_last {α : Type} (l : List α) (x : α) :
    pyPop (l ++ [x]) (l.length : Int) = some (x, l) := by
  rw [pyPop_nat (l ++ [x]) l.length (by simp)]
  rw [get_append_last, eraseIdx_append_last]

theorem eraseIdx_two_length {α : Type} (l : List α) (i j : Nat) (hij : i < j)
    (hj : j < l.length) :
    ((l.eraseIdx j).eraseIdx i).length = l.length - 2 := by
  have h1 : (l.eraseIdx j).length = l.length - 1 := by
    rw [List.length_eraseIdx]
    simp [hj]
  rw [List.length_eraseIdx, h1]
  have h2 : i < l.length - 1 := by omega
  simp [h2]
  omega

theorem eraseIdx_two_get_lt {α : Type} (l : List α) (i j : Nat) (hij : i < j)
    (hj : j < l.length) (k : Nat) (hk : k < l.length - 2) (hki : k < i) :
    ((l.eraseIdx j).eraseIdx i).get
        ⟨k, by rw [eraseIdx_two_length l i j hij hj]; exact hk⟩
      = l.get ⟨k, by omega⟩ := by
  rw [get_eraseIdx_lt (l.eraseIdx j) i k hki, get_eraseIdx_lt l j k (by omega)]

theorem eraseIdx_two_get_mid {α : Type} (l : List α) (i j : Nat) (hij : i < j)
    (hj : j < l.length) (k : Nat) (hk : k < l.length - 2) (hik : i ≤ k)
    (hkj : k + 1 < j) :
    ((l.eraseIdx j).eraseIdx i).get
        ⟨k, by rw [eraseIdx_two_length l i j hij hj]; exact hk⟩
      = l.get ⟨k + 1, by omega⟩ := by
  have h1 : (l.eraseIdx j).length = l.length - 1 := by
    rw [List.length_eraseIdx]
    simp [hj]
  rw [get_eraseIdx_ge (l.eraseIdx j) i k hik (by rw [h1]; omega),
    get_eraseIdx_lt l j (k + 1) hkj]

theorem eraseIdx_two_get_ge {α : Type} (l : List α) (i j : Nat) (hij : i < j)
    (hj : j < l.length) (k : Nat) (hk : k < l.length - 2) (hik : i ≤ k)
    (hkj : j ≤ k + 1) :
    ((l.eraseIdx j).eraseIdx i).get
        ⟨k, by rw [eraseIdx_two_length l i j hij hj]; exact hk⟩
      = l.get ⟨k + 2, by omega⟩ := by
  have h1 : (l.eraseIdx j).length = l.length - 1 := by
    rw [List.length_eraseIdx]
    simp [hj]
  rw [get_eraseIdx_ge (l.eraseIdx j) i k hik (by rw [h1]; omega),
    get_eraseIdx_ge l j (k + 1) (by omega) (by omega)]

theorem popTsTag_asc (row : List String) (i j : Nat) (hij : i < j) (hj : j < row.length) :
    popTsTag row (i : Int) (j : Int)
      = .ok (row.get ⟨i, by omega⟩, row.get ⟨j, hj⟩, (row.eraseIdx j).eraseIdx i) := by
  have hilt : (i : Int) < (j : Int) := by omega
  have hi2 : i < (row.eraseIdx j).length := by
    rw [List.length_eraseIdx]
    simp [hj]
    omega
  simp only [popTsTag, if_pos hilt, pyPop_nat row j hj, pyPop_nat (row.eraseIdx j) i hi2]
  rw [get_eraseIdx_lt row j i hij hi2]

theorem popTsTag_desc (row : List String) (i j : Nat) (hji : j < i) (hi : i < row.length) :
    popTsTag row (i : Int) (j : Int)
      = .ok (row.get ⟨i, hi⟩, row.get ⟨j, by omega⟩, (row.eraseIdx i).eraseIdx j) := by
  have h1 : ¬ ((i : Int) < (j : Int)) := by omega
  have h2 : (j : Int) < (i : Int) := by omega
  have hj2 : j < (row.eraseIdx i).length := by
    rw [List.length_eraseIdx]
    simp [hi]
    omega
  simp only [popTsTag, if_neg h1, if_pos h2, pyPop_nat row i hi,
    pyPop_nat (row.eraseIdx i) j hj2]
  rw [get_eraseIdx_lt row i j hji hj2]

/-! Lemmas about the placeholder substitution. -/

theorem formatAux_not_brace (arg : List Char) (c : Char) (l : List Char)
    (hc1 : c ≠ lbrace) (hc2 : c ≠ rbrace) :
    formatAux arg (c :: l) = (formatAux arg l).map (fun t => c :: t) := by
  match l with
  | [] => simp [formatAux, hc1, hc2]
  | [d] =>
    have h1 : ¬ (c = lbrace ∧ d = lbrace) := fun h => hc1 h.1
    have h2 : ¬ (c = rbrace ∧ d = rbrace) := fun h => hc2 h.1
    have h3 : ¬ (c = lbrace ∨ c = rbrace) := by tauto
    simp only [formatAux, if_neg h1, if_neg h2, if_neg h3]
  | d :: e :: r =>
    have h1 : ¬ (c = lbrace ∧ d = lbrace) := fun h => hc1 h.1
    have h2 : ¬ (c = rbrace ∧ d = rbrace) := fun h => hc2 h.1
    have h3 : ¬ (c = lbrace ∧ d = '0' ∧ e = rbrace) := fun h => hc1 h.1
    have h4 : ¬ (c = lbrace ∨ c = rbrace) := by tauto
    simp only [formatAux, if_neg h1, if_neg h2, if_neg h3, if_neg h4]

theorem formatAux_placeholder (arg : List Char) (l : List Char) :
    formatAux arg (lbrace :: '0' :: rbrace :: l)
      = (formatAux arg l).map (fun t => arg ++ t) := by
  have h1 : ('0' : Char) ≠ lbrace := by decide
  have h2 : lbrace ≠ rbrace := by decide
  simp [formatAux, h1, h2]

theorem formatAux_no_brace (arg : List Char) : ∀ (l : List Char), lbrace ∉ l →
    rbrace ∉ l → formatAux arg l = some l
  | [], _, _ => rfl
  | c :: t, h1, h2 => by
      have hc1 : c ≠ lbrace := fun he => h1 (he ▸ List.mem_cons_self c t)
      have hc2 : c ≠ rbrace := fun he => h2 (he ▸ List.mem_cons_self c t)
      rw [formatAux_not_brace arg c t hc1 hc2,
        formatAux_no_brace arg t (fun hm => h1 (List.mem_cons_of_mem c hm))
          (fun hm => h2 (List.mem_cons_of_mem c hm))]
      rfl

theorem formatAux_append_no_brace (arg : List Char) : ∀ (a l : List Char),
    lbrace ∉ a → rbrace ∉ a →
    formatAux arg (a ++ l) = (formatAux arg l).map (fun t => a ++ t)
  | [], l, _, _ => by cases h : formatAux arg l <;> simp [h]
  | c :: t, l, h1, h2 => by
      have hc1 : c ≠ lbrace := fun he => h1 (he ▸ List.mem_cons_self c t)
      have hc2 : c ≠ rbrace := fun he => h2 (he ▸ List.mem_cons_self c t)
      rw [List.cons_append, formatAux_not_brace arg c (t ++ l) hc1 hc2,
        formatAux_append_no_brace arg t l (fun hm => h1 (List.mem_cons_of_mem c hm))
          (fun hm => h2 (List.mem_cons_of_mem c hm))]
      cases formatAux arg l <;> simp

/-! Lemmas about the extraction list of the decode-query generator. -/

theorem enumFrom_get : ∀ (l : List String) (k i : Nat) (h : i < l.length),
    (List.enumFrom k l).get ⟨i, by simp [List.enumFrom_length]; exact h⟩
      = (k + i, l.get ⟨i, h⟩)
  | a :: t, k, 0, _ => by simp [List.enumFrom]
  | a :: t, k, i + 1, h => by
      have ht := enumFrom_get t (k + 1) i (by simpa using h)
      rw [show k + (i + 1) = (k + 1) + i from by omega]
      exact ht
  | [], _, _, h => by simp at h

theorem linqExtracts_length (cols : List String) :
    (linqExtracts cols).length = cols.length := by
  simp [linqExtracts]

theorem linqExtracts_get (cols : List String) (i : Nat) (hi : i < cols.length) :
    (linqExtracts cols).get ⟨i, by rw [linqExtracts_length]; exact hi⟩
      = col_extract i (cols.get ⟨i, hi⟩) := by
  simp only [linqExtracts, List.enum]
  rw [List.get_map, enumFrom_get cols 0 i hi]
  simp

/-! Sorted-keys helper for the mapping normalizer. -/

theorem map_some_erase (l : List String) (t : String) :
    ((l.map some).erase (some t)) = (l.erase t).map some := by
  induction l with
  | nil => rfl
  | cons a r ih =>
    by_cases hat : a = t
    · subst hat
      simp [List.erase_cons]
    · simp [List.erase_cons, hat, ih]

theorem map_unwrap_some (l : List String) : (l.map some).map unwrapName = l := by
  induction l with
  | nil => rfl
  | cons a r ih => simp [unwrapName, ih]

/-- C2: for every row of string fields (none containing a newline), slicing
the payload string produced by the Wire Encoder from `index[i]` to
`index[i+1]` recovers exactly field `i`, for every position `i`, regardless
of field content; in particular the row `["7","a,b","c"]` encodes to index
string `"0,1,4,5"`, payload `"7a,bc"` and message body `0,1,4,5<>7a,bc`. -/
theorem c2_slice_recovers_fields (row : List String)
    (hnl : ∀ f ∈ row, ('\n' : Char) ∉ f.data) (i : Nat) (hi : i < row.length) :
    pySlice (row_concated row)
        ((msg_indices row).get ⟨i, by rw [msg_indices_length]; omega⟩)
        ((msg_indices row).get ⟨i + 1, by rw [msg_indices_length]; omega⟩)
      = row.get ⟨i, hi⟩
    ∧ indices_str ["7", "a,b", "c"] = "0,1,4,5"
    ∧ row_concated ["7", "a,b", "c"] = "7a,bc"
    ∧ make_msg "" ["7", "a,b", "c"] = "0,1,4,5<>7a,bc\n" :=
  ⟨slice_field row i hi, by decide, by decide, by decide⟩

/-- C2 witness at the example row. -/
theorem c2_witness :
    ((∀ f ∈ (["7", "a,b", "c"] : List String), ('\n' : Char) ∉ f.data) ∧ 1 < 3)
    ∧ pySlice (row_concated ["7", "a,b", "c"])
        ((msg_indices ["7", "a,b", "c"]).get ⟨1, by decide⟩)
        ((msg_indices ["7", "a,b", "c"]).get ⟨2, by decide⟩)
      = "a,b" :=
  ⟨⟨by decide, by decide⟩,
   (c2_slice_recovers_fields ["7", "a,b", "c"] (by decide) 1 (by decide)).1⟩

/-- C3: for every row (including the empty one) the index list of the Wire
Encoder has exactly `len(row)+1` entries, starts with 0, entry `i+1` is
entry `i` plus the length of field `i`, and the entries are
non-decreasing. -/
theorem c3_index_string_invariants (row : List String) :
    (msg_indices row).length = row.length + 1
    ∧ (msg_indices row).head? = some 0
    ∧ (∀ i (hi : i < row.length),
        (msg_indices row).get ⟨i + 1, by rw [msg_indices_length]; omega⟩
          = (msg_indices row).get ⟨i, by rw [msg_indices_length]; omega⟩
            + (row.get ⟨i, hi⟩).length)
    ∧ (∀ i j (hij : i ≤ j) (hj : j ≤ row.length),
        (msg_indices row).get ⟨i, by rw [msg_indices_length]; omega⟩
          ≤ (msg_indices row).get ⟨j, by rw [msg_indices_length]; omega⟩) := by
  refine ⟨msg_indices_length row, ?_, ?_, ?_⟩
  · simp [msg_indices, np_cumsum, msg_lengths, cumsumFrom]
  · intro i hi
    rw [msg_indices_get row i (by omega), msg_indices_get_succ row i hi]
  · intro i j hij hj
    exact msg_indices_mono row i j hij hj

/-- C3 witness at a concrete row. -/
theorem c3_witness :
    (0 < 2)
    ∧ (msg_indices ["ab", "c"]).get ⟨1, by decide⟩
      = (msg_indices ["ab", "c"]).get ⟨0, by decide⟩ + ("ab" : String).length :=
  ⟨by decide, (c3_index_string_invariants ["ab", "c"]).2.2.1 0 (by decide)⟩

/-- C1: the Decode-Query Generator emits exactly one extraction expression
per column; the extraction at position `i` is the template instantiated
with `i` (referencing entries `i` and `i+1` of the comma-split index
string), and those two entries are exactly the start and exclusive-end
offsets the Wire Encoder writes for field `i` of every row under the same
Column Set ordering, so the generated substring recovers field `i`. -/
theorem c1_linq_matches_encoder (tag : String) (n : Int) (cols : List String) :
    build_linq tag n (some cols) = linq_from tag ++ String.join (linqExtracts cols)
    ∧ build_linq tag n none
      = linq_from tag ++ String.join (linqExtracts (default_columns n))
    ∧ (linqExtracts cols).length = cols.length
    ∧ (∀ i (hi : i < cols.length),
        (linqExtracts cols).get ⟨i, by rw [linqExtracts_length]; exact hi⟩
          = col_extract i (cols.get ⟨i, hi⟩))
    ∧ (∀ row : List String, row.length = cols.length →
        ∀ i (hi : i < row.length),
          (msg_indices row).get ⟨i, by rw [msg_indices_length]; omega⟩
            = ((row.take i).map String.length).sum
          ∧ (msg_indices row).get ⟨i + 1, by rw [msg_indices_length]; omega⟩
            = (msg_indices row).get ⟨i, by rw [msg_indices_length]; omega⟩
              + (row.get ⟨i, hi⟩).length
          ∧ substringSem (row_concated row)
              ((msg_indices row).get ⟨i, by rw [msg_indices_length]; omega⟩)
              ((msg_indices row).get ⟨i + 1, by rw [msg_indices_length]; omega⟩
                - (msg_indices row).get ⟨i, by rw [msg_indices_length]; omega⟩)
            = row.get ⟨i, hi⟩)
    ∧ splitComma (indices_str ["7", "a,b", "c"]) = ["0", "1", "4", "5"] := by
  refine ⟨rfl, rfl, linqExtracts_length cols, linqExtracts_get cols, ?_, by decide⟩
  intro row _ i hi
  refine ⟨msg_indices_get row i (by omega), ?_, ?_⟩
  · rw [msg_indices_get row i (by omega), msg_indices_get_succ row i hi]
  · exact slice_field row i hi

/-- C1 witness at a concrete column set and row. -/
theorem c1_witness :
    (1 < 2)
    ∧ (linqExtracts ["x", "y"]).get ⟨1, by decide⟩ = col_extract 1 "y"
    ∧ ((["q", "rs"] : List String).length = 2
       ∧ substringSem (row_concated ["q", "rs"])
           ((msg_indices ["q", "rs"]).get ⟨1, by decide⟩)
           ((msg_indices ["q", "rs"]).get ⟨2, by decide⟩
             - (msg_indices ["q", "rs"]).get ⟨1, by decide⟩)
         = "rs") := by
  refine ⟨by decide, ?_, by decide, ?_⟩
  · exact (c1_linq_matches_encoder "t" 2 ["x", "y"]).2.2.2.1 1 (by decide)
  · exact ((c1_linq_matches_encoder "t" 2 ["x", "y"]).2.2.2.2.1
      ["q", "rs"] (by decide) 1 (by decide)).2.2

set_option maxRecDepth 40000 in
/-- C4: whenever every per-row loop-body step succeeds (the timestamp pop
is in range and the per-row header format raises nothing — `encOkB` is
false exactly where the program would raise), a historical load of N rows
issues exactly ceil(N/50) transport writes and a live load of N rows
exactly N writes, flushing the non-empty partial final batch; 120
historical rows produce exactly three writes of 50, 50 and 20 messages;
zero rows produce zero writes. -/
theorem c4_batching_write_counts :
    (∀ (hostname tag : String) (ti : Int) (rows : List (Except PyErr (List String))),
        (∀ r ∈ rows,
          encOkB true (make_message_header tag true hostname) (some ti) r = true) →
        (loadRun hostname tag true (some ti) 50 rows).2 = none
        ∧ (loadRun hostname tag true (some ti) 50 rows).1.length
            = (rows.length + 49) / 50)
    ∧ (∀ (hostname tag : String) (rows : List (Except PyErr (List String))),
        (∀ r ∈ rows,
          encOkB false (make_message_header tag false hostname) none r = true) →
        (loadRun hostname tag false none 1 rows).2 = none
        ∧ (loadRun hostname tag false none 1 rows).1.length = rows.length)
    ∧ ((loadRun "h" "t" true (some 1) 50
          (List.replicate 120 (Except.ok ["a", "T"]))).1.map countNL = [50, 50, 20]
       ∧ (loadRun "h" "t" true (some 1) 50
          (List.replicate 120 (Except.ok ["a", "T"]))).2 = none)
    ∧ (∀ (hostname tag : String) (historical : Bool) (tsi : Option Int) (chunk : Nat),
        loadRun hostname tag historical tsi chunk [] = ([], none)) := by
  refine ⟨?_, ?_, ⟨by decide, by decide⟩, ?_⟩
  · intro hostname tag ti rows hall
    have h := loadGo_ok true (make_message_header tag true hostname) (some ti) 50
      (by omega) rows 0 "" (by omega) (by simp) hall
    exact ⟨h.1, by simpa [loadRun] using h.2.1⟩
  · intro hostname tag rows hall
    have h := loadGo_ok false (make_message_header tag false hostname) none 1
      (by omega) rows 0 "" (by omega) (by simp) hall
    exact ⟨h.1, by simpa [loadRun] using h.2.1⟩
  · intro hostname tag historical tsi chunk
    simp [loadRun, loadGo]

/-- C4 witness at a one-row historical input. -/
theorem c4_witness :
    (∀ r ∈ ([Except.ok ["a", "T"]] : List (Except PyErr (List String))),
        encOkB true (make_message_header "t" true "h") (some 1) r = true)
    ∧ (loadRun "h" "t" true (some 1) 50 [Except.ok ["a", "T"]]).1.length = 1 := by
  refine ⟨by decide, ?_⟩
  have h := (c4_batching_write_counts.1 "h" "t" 1 [Except.ok ["a", "T"]] (by decide)).2
  exact h.trans (by norm_num)

/-- C9: calling load (shipped or repaired dispatch) or load_multi with an
empty input raises StopIteration out of the call, before any transport
write and before any decode-query fragment is generated, because the first
element is unconditionally consumed by `next(data)`. -/
theorem c9_empty_input_stop_iteration (hostname tag : String) (historical : Bool)
    (tsi tgi : Option Int) (tsn tgn : Option String) (cols : Option (List String))
    (ul : Bool) :
    load hostname [] tag historical tsi tsn cols ul = ⟨[], none, some .stopIteration⟩
    ∧ loadI hostname [] tag historical tsi tsn cols ul = ⟨[], none, some .stopIteration⟩
    ∧ load_multi hostname [] tgi tgn historical tsi tsn
      = ⟨[], none, some .stopIteration⟩ :=
  ⟨rfl, rfl, rfl⟩

/-- C10: both normalizers re-emit the consumed first record — stringified
by `_process_seq`, projected by `_process_mapping` — at the head of the
normalized stream, so an input of N records yields N normalized rows; and
whenever every loop-body step succeeds (`encOkB` is false exactly where
the program would raise, including per-row header format errors), the
transport writes concatenate to exactly the N encoded messages, in
order. -/
theorem c10_normalizer_row_preservation (fs : List PyVal)
    (ps : List (String × PyVal)) (names : List (Option String))
    (rest rest2 : List Record) (hostname tag : String) (ti : Int)
    (hok : ∀ r ∈ processSeq (.seq fs) rest,
      encOkB true (make_message_header tag true hostname) (some ti) r = true)
    (hok2 : ∀ r ∈ processMapping names (.mapping ps) rest2,
      encOkB true (make_message_header tag true hostname) (some ti) r = true) :
    processSeq (.seq fs) rest = .ok (fs.map PyVal.toStr) :: rest.map iterStr
    ∧ (processSeq (.seq fs) rest).length = rest.length + 1
    ∧ processMapping names (.mapping ps) rest2
        = projectByNames names (.mapping ps) :: rest2.map (projectByNames names)
    ∧ (processMapping names (.mapping ps) rest2).length = rest2.length + 1
    ∧ (loadRun hostname tag true (some ti) 50 (processSeq (.seq fs) rest)).2 = none
    ∧ String.join (loadRun hostname tag true (some ti) 50 (processSeq (.seq fs) rest)).1
        = String.join ((processSeq (.seq fs) rest).map
            (msgOf true (make_message_header tag true hostname) (some ti)))
    ∧ ((processSeq (.seq fs) rest).map
          (msgOf true (make_message_header tag true hostname) (some ti))).length
        = rest.length + 1
    ∧ (loadRun hostname tag true (some ti) 50
          (processMapping names (.mapping ps) rest2)).2 = none
    ∧ String.join (loadRun hostname tag true (some ti) 50
          (processMapping names (.mapping ps) rest2)).1
        = String.join ((processMapping names (.mapping ps) rest2).map
            (msgOf true (make_message_header tag true hostname) (some ti))) := by
  have h := loadGo_ok true (make_message_header tag true hostname) (some ti) 50
    (by omega) (processSeq (.seq fs) rest) 0 "" (by omega) (by simp) hok
  have h2 := loadGo_ok true (make_message_header tag true hostname) (some ti) 50
    (by omega) (processMapping names (.mapping ps) rest2) 0 "" (by omega) (by simp) hok2
  refine ⟨rfl, by simp [processSeq], rfl, by simp [processMapping], h.1, ?_,
    by simp [processSeq], h2.1, ?_⟩
  · exact h.2.2.trans (string_empty_append _)
  · exact h2.2.2.trans (string_empty_append _)

/-- C10 witness at concrete two-record sequence and one-record mapping
inputs. -/
theorem c10_witness :
    ((∀ r ∈ processSeq (.seq [PyVal.int 5, PyVal.str "T"])
        [Record.seq [PyVal.str "b", PyVal.str "U"]],
        encOkB true (make_message_header "t" true "h") (some 1) r = true)
     ∧ (∀ r ∈ processMapping [some "x", some "ts"]
          (.mapping [("x", PyVal.str "1"), ("ts", PyVal.str "9")]) [],
        encOkB true (make_message_header "t" true "h") (some 1) r = true))
    ∧ processSeq (.seq [PyVal.int 5, PyVal.str "T"])
        [Record.seq [PyVal.str "b", PyVal.str "U"]]
      = .ok (([PyVal.int 5, PyVal.str "T"]).map PyVal.toStr)
          :: ([Record.seq [PyVal.str "b", PyVal.str "U"]]).map iterStr := by
  refine ⟨⟨by decide, by decide⟩, ?_⟩
  exact (c10_normalizer_row_preservation [PyVal.int 5, PyVal.str "T"]
    [("x", PyVal.str "1"), ("ts", PyVal.str "9")] [some "x", some "ts"]
    [Record.seq [PyVal.str "b", PyVal.str "U"]] [] "h" "t" 1
    (by decide) (by decide)).1

set_option maxRecDepth 10000 in
/-- C5 counterexample: the shipped `load` raises `NameError` (name pd is
not defined, writer.py line 106 with pandas never imported) at the claim
Example's own mapping input, writing nothing and generating no fragment —
so no Column Set is resolved and no fields are encoded; and even the
mapping-resolution logic the branch spells out (lines 107-122) SORTS the
keys (`sorted(first.keys())`, line 110): for insertion key order
`["y","x","ts"]` it resolves Column Set `["x","y"]`, not the claimed
mapping-own order `["y","x"]`. -/
theorem c5_counterexample :
    load "h" [Record.mapping [("x", .str "1"), ("y", .str "2"), ("ts", .str "100")]]
        "t" true none (some "ts") none true
      = ⟨[], none, some (.nameError "pd")⟩
    ∧ resolveMapping true none (some "ts") none 2
        [("y", .str "2"), ("x", .str "1"), ("ts", .str "100")]
      = .ok ([some "x", some "y", some "ts"], some ["x", "y"], some 2)
    ∧ (["x", "y"] : List String) ≠ ["y", "x"] :=
  ⟨by decide, by decide, by decide⟩

set_option maxRecDepth 10000 in
/-- C5 (amended): as shipped, EVERY keyed-mapping load call raises
`NameError` (missing pandas import, see C7) before any transport write and
before any decode-query fragment; the mapping-resolution logic the branch
spells out (writer.py lines 107-122, unreachable as shipped) resolves the
SORTED key order of the first element with the timestamp moved to the last
position — not the mapping's own key order — the Column Set is that sorted
order minus the timestamp name, the timestamp sits at the fixed trailing
index, and under that logic the Example row projects to Column Set
`["x","y"]`, timestamp `"100"`, fields `["1","2"]` (its keys happen to be
already sorted). -/
theorem c5_sorted_key_projection :
    (∀ (hostname tag : String) (historical : Bool) (ps : List (String × PyVal))
        (rest : List Record) (tsi : Option Int) (tsn : Option String)
        (cols : Option (List String)) (ul : Bool),
        load hostname (Record.mapping ps :: rest) tag historical tsi tsn cols ul
          = ⟨[], none, some (.nameError "pd")⟩)
    ∧ (∀ (ps : List (String × PyVal)) (ts : String) (tsi : Option Int) (n : Int),
        ts ∈ pySorted (ps.map Prod.fst) →
        resolveMapping true none (some ts) tsi n ps
          = .ok ((((pySorted (ps.map Prod.fst)).erase ts).map some) ++ [some ts],
                 some ((pySorted (ps.map Prod.fst)).erase ts), some n))
    ∧ (∀ (vals : List String) (tsv : String),
        pyPop (vals ++ [tsv]) (vals.length : Int) = some (tsv, vals))
    ∧ resolveMapping true none (some "ts") none 2
        [("x", .str "1"), ("y", .str "2"), ("ts", .str "100")]
      = .ok ([some "x", some "y", some "ts"], some ["x", "y"], some 2)
    ∧ projectByNames [some "x", some "y", some "ts"]
        (.mapping [("x", .str "1"), ("y", .str "2"), ("ts", .str "100")])
      = .ok ["1", "2", "100"]
    ∧ pyPop (["1", "2", "100"] : List String) 2 = some ("100", ["1", "2"]) := by
  refine ⟨?_, ?_, pyPop_append_last, by decide, by decide, by decide⟩
  · intro hostname tag historical ps rest tsi tsn cols ul
    rfl
  · intro ps ts tsi n hts
    have hmem : (some ts) ∈ (pySorted (ps.map Prod.fst)).map some :=
      List.mem_map_of_mem some hts
    have hcomp : ∀ l : List String, l.map (unwrapName ∘ some) = l := by
      intro l
      induction l with
      | nil => rfl
      | cons a r ih => simp [unwrapName, ih]
    simp [resolveMapping, hmem, map_some_erase, map_unwrap_some, hcomp]

/-- C5 witness at a concrete two-key mapping. -/
theorem c5_witness :
    ("ts" ∈ pySorted (([("x", PyVal.str "1"), ("ts", PyVal.str "9")]).map Prod.fst))
    ∧ resolveMapping true none (some "ts") none 1 [("x", PyVal.str "1"), ("ts", PyVal.str "9")]
      = .ok ([some "x", some "ts"], some ["x"], some 1) := by
  refine ⟨by decide, ?_⟩
  have h := c5_sorted_key_projection.2.1 [("x", PyVal.str "1"), ("ts", PyVal.str "9")]
    "ts" none 1 (by decide)
  rw [h]
  decide

set_option maxRecDepth 10000 in
/-- C6 counterexample: with `ts_index = -1` and `tag_index = 2` on a
three-field row both indices resolve to the same position (the last field),
yet `_load_multi` compares the raw integers, enters the `ts_index <
tag_index` branch, silently pops the same position twice (the extracted
timestamp is the ORIGINAL SECOND field "b"), raises nothing, and a
transport write occurs. -/
theorem c6_counterexample :
    ((-1 : Int) < 0 ∧ (-1 : Int) + 3 = 2)
    ∧ popTsTag ["a", "b", "T"] (-1) 2 = .ok ("b", "T", ["a"])
    ∧ pyFormat1 (make_message_header "T" true "h") "b" = .ok "<14>b h (usd)T: "
    ∧ load_multi "h" [Record.seq [.str "a", .str "b", .str "T"]] (some 2) none true
        (some (-1)) none
      = ⟨[make_msg "<14>b h (usd)T: " ["a"]], none, none⟩
    ∧ make_msg "<14>b h (usd)T: " ["a"] ≠ "" :=
  ⟨⟨by decide, by decide⟩, by decide, by decide, by decide, make_msg_ne_empty _ _⟩

/-- C6 (amended): when the caller-supplied timestamp index EQUALS the tag
index as given integers, every multi-tag historical load fails with the
Same-Index configuration error before any transport write; when the two
indices are distinct naturals, the pops happen in descending index order,
the extracted values are the fields at those positions, and the remaining
row is exactly the original row with those two positions excluded, in
original order (negative aliases of the same position are NOT detected). -/
theorem c6_same_index_fail_fast :
    (∀ (hostname : String) (fs : List PyVal) (rest : List Record) (i : Int)
        (tsn tgn : Option String),
        load_multi hostname (Record.seq fs :: rest) (some i) tgn true (some i) tsn
          = ⟨[], none, some (.exception "ts and tag were assigned same index")⟩)
    ∧ (∀ (row : List String) (i j : Nat) (hij : i < j) (hj : j < row.length),
        popTsTag row (i : Int) (j : Int)
          = .ok (row.get ⟨i, by omega⟩, row.get ⟨j, hj⟩, (row.eraseIdx j).eraseIdx i)
        ∧ ((row.eraseIdx j).eraseIdx i).length = row.length - 2
        ∧ (∀ k (hk : k < row.length - 2),
            (∀ hki : k < i,
              ((row.eraseIdx j).eraseIdx i).get
                  ⟨k, by rw [eraseIdx_two_length row i j hij hj]; exact hk⟩
                = row.get ⟨k, by omega⟩)
            ∧ (∀ (hik : i ≤ k) (hkj : k + 1 < j),
              ((row.eraseIdx j).eraseIdx i).get
                  ⟨k, by rw [eraseIdx_two_length row i j hij hj]; exact hk⟩
                = row.get ⟨k + 1, by omega⟩)
            ∧ (∀ (hik : i ≤ k) (hkj : j ≤ k + 1),
              ((row.eraseIdx j).eraseIdx i).get
                  ⟨k, by rw [eraseIdx_two_length row i j hij hj]; exact hk⟩
                = row.get ⟨k + 2, by omega⟩)))
    ∧ (∀ (row : List String) (i j : Nat) (hji : j < i) (hi : i < row.length),
        popTsTag row (i : Int) (j : Int)
          = .ok (row.get ⟨i, hi⟩, row.get ⟨j, by omega⟩, (row.eraseIdx i).eraseIdx j)) := by
  refine ⟨?_, ?_, ?_⟩
  · intro hostname fs rest i tsn tgn
    simp [load_multi, Record.pyLen, processSeq, iterStr, loadMultiGo, multiStep,
      popTsTag, lt_irrefl, Except.map]
  · intro row i j hij hj
    refine ⟨popTsTag_asc row i j hij hj, eraseIdx_two_length row i j hij hj, ?_⟩
    intro k hk
    exact ⟨fun hki => eraseIdx_two_get_lt row i j hij hj k hk hki,
           fun hik hkj => eraseIdx_two_get_mid row i j hij hj k hk hik hkj,
           fun hik hkj => eraseIdx_two_get_ge row i j hij hj k hk hik hkj⟩
  · intro row i j hji hi
    exact popTsTag_desc row i j hji hi

/-- C6 witness at a concrete three-field row. -/
theorem c6_witness :
    (0 < 2 ∧ 2 < 3)
    ∧ popTsTag ["a", "b", "c"] ((0 : Nat) : Int) ((2 : Nat) : Int)
      = .ok ("a", "c", ["b"]) := by
  refine ⟨⟨by decide, by decide⟩, ?_⟩
  have h := (c6_same_index_fail_fast.2.1 ["a", "b", "c"] 0 2 (by decide) (by decide)).1
  rw [h]
  decide

/-- C7: the claim is right and the code is wrong.  The module never imports
pandas, so for a first element that is no supported variant the shipped
`load` raises `NameError` at the isinstance check on line 106 (and
`TypeError` even earlier, at `len(first)`, for objects without `len()`)
instead of the Unsupported-Input `Exception` of line 124, which is
unreachable; a mapping first element hits the same `NameError`.  With that
omission repaired (`loadI`), the unsupported-shape branch raises exactly the
intended Exception naming the type, before any write and before any
decode-query fragment. -/
theorem c7_shipped_dispatch_namerror :
    load "h" [Record.other "set" (some 1)] "t" false none none none true
      = ⟨[], none, some (.nameError "pd")⟩
    ∧ load "h" [Record.mapping [("x", .str "1")]] "t" false none none none true
      = ⟨[], none, some (.nameError "pd")⟩
    ∧ load "h" [Record.other "int" none] "t" false none none none true
      = ⟨[], none, some (.typeError "object has no len()")⟩
    ∧ loadI "h" [Record.other "set" (some 1)] "t" false none none none true
      = ⟨[], none, some (.exception "data of type set is not supported for loading")⟩ :=
  ⟨by decide, by decide, by decide, by decide⟩

/-- C8 counterexample: CPython applies `.format(ts)` to the WHOLE header
template at writer.py line 157, so the claimed header shape fails for
every tag that interacts with the format parser: a tag containing the
placeholder "\x7b0\x7d" has the timestamp substituted into it, a tag that
is a lone right brace makes `.format` raise `ValueError` on the first row
(no header exists at all), and the brace escape in a tag like "x\x7d\x7dy"
is collapsed to a single brace rather than passed through unmodified. -/
theorem c8_counterexample :
    pyFormat1 (make_message_header "{0}" true "h") "T" = .ok "<14>T h (usd)T: "
    ∧ "<14>T h (usd)T: " ≠ "<14>T h (usd){0}: "
    ∧ pyFormat1 (make_message_header rbraceStr true "h") "T"
      = .error (.valueError "Single brace encountered in format string")
    ∧ pyFormat1 (make_message_header tagDoubledBrace true "h") "T"
      = .ok ("<14>T h (usd)" ++ tagSingleBrace ++ ": ")
    ∧ tagSingleBrace ≠ tagDoubledBrace :=
  ⟨by decide, by decide, by decide, by decide, by decide⟩

/-- C8 (amended): for tag and hostname strings containing no brace
character of either kind, the historical header after per-row timestamp
substitution is exactly `<14>{timestamp} {hostname} (usd){tag}: `, and the
live header is exactly `<14>Jan  1 00:00:00 {hostname} {tag}: ` for EVERY
tag and hostname, with the tag unmodified and no per-row substitution
(live mode never calls `.format`). -/
theorem c8_header_shapes (tag hostname ts : String)
    (htag1 : lbrace ∉ tag.data) (htag2 : rbrace ∉ tag.data)
    (hhost1 : lbrace ∉ hostname.data) (hhost2 : rbrace ∉ hostname.data) :
    pyFormat1 (make_message_header tag true hostname) ts
      = .ok ("<14>" ++ ts ++ " " ++ hostname ++ " " ++ "(usd)" ++ tag ++ ": ")
    ∧ (∀ (tag2 hostname2 : String),
        make_message_header tag2 false hostname2
          = "<14>Jan  1 00:00:00 " ++ (hostname2 ++ " " ++ tag2 ++ ": ")) := by
  constructor
  · have hY1 : lbrace ∉ (" " ++ (hostname ++ " " ++ ("(usd)" ++ tag) ++ ": ")).data := by
      intro hmem
      simp only [String.data_append, List.mem_append] at hmem
      have hsp : ¬ lbrace ∈ [' '] := by decide
      have husd : ¬ lbrace ∈ ['(', 'u', 's', 'd', ')'] := by decide
      have hcol : ¬ lbrace ∈ [':', ' '] := by decide
      tauto
    have hY2 : rbrace ∉ (" " ++ (hostname ++ " " ++ ("(usd)" ++ tag) ++ ": ")).data := by
      intro hmem
      simp only [String.data_append, List.mem_append] at hmem
      have hsp : ¬ rbrace ∈ [' '] := by decide
      have husd : ¬ rbrace ∈ ['(', 'u', 's', 'd', ')'] := by decide
      have hcol : ¬ rbrace ∈ [':', ' '] := by decide
      tauto
    have h1 : (make_message_header tag true hostname).data
        = ("<14>" : String).data
            ++ (lbrace :: '0' :: rbrace
                :: (" " ++ (hostname ++ " " ++ ("(usd)" ++ tag) ++ ": ")).data) := by
      show ("<14>{0} " ++ (hostname ++ " " ++ ("(usd)" ++ tag) ++ ": ")).data = _
      have hlit : ("<14>{0} " : String).data
          = ("<14>" : String).data ++ (lbrace :: '0' :: rbrace :: (" " : String).data) := by
        decide
      rw [String.data_append, hlit]
      simp [String.data_append, List.append_assoc]
    have h2 : formatAux ts.data (make_message_header tag true hostname).data
        = some (("<14>" : String).data
            ++ (ts.data ++ (" " ++ (hostname ++ " " ++ ("(usd)" ++ tag) ++ ": ")).data)) := by
      rw [h1, formatAux_append_no_brace _ _ _ (by decide) (by decide),
        formatAux_placeholder, formatAux_no_brace _ _ hY1 hY2]
      rfl
    have h3 : pyFormat1 (make_message_header tag true hostname) ts
        = .ok (String.mk (("<14>" : String).data
            ++ (ts.data ++ (" " ++ (hostname ++ " " ++ ("(usd)" ++ tag) ++ ": ")).data))) := by
      unfold pyFormat1
      rw [h2]
    rw [h3]
    congr 1
    apply String.ext
    show ("<14>" : String).data
        ++ (ts.data ++ (" " ++ (hostname ++ " " ++ ("(usd)" ++ tag) ++ ": ")).data)
      = ("<14>" ++ ts ++ " " ++ hostname ++ " " ++ "(usd)" ++ tag ++ ": ").data
    simp [String.data_append, List.append_assoc]
  · intro tag2 hostname2
    rfl

/-- C8 witness at concrete brace-free tag and hostname. -/
theorem c8_witness :
    ((lbrace ∉ ("tg" : String).data ∧ rbrace ∉ ("tg" : String).data)
     ∧ (lbrace ∉ ("hh" : String).data ∧ rbrace ∉ ("hh" : String).data))
    ∧ pyFormat1 (make_message_header "tg" true "hh") "TS"
      = .ok ("<14>" ++ "TS" ++ " " ++ "hh" ++ " " ++ "(usd)" ++ "tg" ++ ": ") :=
  ⟨⟨⟨by decide, by decide⟩, ⟨by decide, by decide⟩⟩,
   (c8_header_shapes "tg" "hh" "TS" (by decide) (by decide) (by decide) (by decide)).1⟩
